import Mathlib

/-!
Verification development for the bsure-chatbot-grafana-panel plugin.

Server side (Go, pkg/plugin): a rate limiter keyed by client identity and the
handleGroqChat resource handler that validates requests and proxies them to the
Groq API.  Client side (TypeScript, ChatbotPanel): the structural string
sanitizer applied to dashboard metadata, the message validator, the panel-data
enrichment, and the first-turn submission path.

Modelling conventions:
- Go time.Time instants are integers (one unit = one second); t.After(c) is c < t
  and now.Add(-window) is now - window.
- Go byte lengths of strings are modelled as character counts (all boundary
  inputs in the tests are ASCII, where the two coincide).
- http.Error writes the message followed by a newline; responses are modelled as
  a status code plus the message itself.
- The rate limiter map is a total function from client key to timestamp list,
  empty lists standing for absent keys.
- json.Marshal of the decoded request struct and http.NewRequest with a constant
  URL cannot fail, so those two unreachable 500 branches of handleGroqChat are
  elided; the errors that can occur on the upstream call (client.Do failure,
  io.ReadAll failure, non-200 status) are the Upstream inductive.
-/

/-- State of the rate limiter: for each client key the retained request
timestamps, mirroring the requests map of RateLimiter. -/
def RLState : Type := String → List Int

/-- The freshly constructed rate limiter of NewRateLimiter: no timestamps
recorded for any client. -/
def emptyRL : RLState := fun _ => []

/-- Timestamp filtering inside RateLimiter.isAllowed: keep the request times
strictly after the cutoff now - timeWindow (time.After is strict). -/
def pruneTimes (cutoff : Int) (l : List Int) : List Int :=
  l.filter (fun t => decide (cutoff < t))

/-- RateLimiter.isAllowed: prune the client's timestamps to the window, reject
without writing back when the pruned count has reached maxRequests, otherwise
append the current time and record the new list. Returns the admission flag and
the state after the call. -/
def isAllowed (st : RLState) (clientID : String) (maxRequests : Nat)
    (timeWindow : Int) (now : Int) : Bool × RLState :=
  let valid := pruneTimes (now - timeWindow) (st clientID)
  if maxRequests ≤ valid.length then
    (false, st)
  else
    (true, fun k => if k = clientID then valid ++ [now] else st k)

/-- Sequential admission decisions for one client: run isAllowed once per entry
of the time list, threading the limiter state. -/
def runAllowedCalls (clientID : String) (maxRequests : Nat) (timeWindow : Int) :
    List Int → RLState → List Bool × RLState
  | [], st => ([], st)
  | t :: ts, st =>
    let r := isAllowed st clientID maxRequests timeWindow t
    let rest := runAllowedCalls clientID maxRequests timeWindow ts r.2
    (r.1 :: rest.1, rest.2)

/-- One chat message of the decoded request body. -/
structure ChatMessage where
  role : String
  content : String
deriving DecidableEq

/-- Decoded request body of handleGroqChat: model name and message list. -/
structure ReqBody where
  model : String
  messages : List ChatMessage
deriving DecidableEq

/-- Outcome of reading and JSON-decoding the request body (the 1 MiB
MaxBytesReader cap makes an oversized body a decode failure). -/
inductive BodyDecode where
  | invalid : BodyDecode
  | valid : ReqBody → BodyDecode
deriving DecidableEq

/-- The parts of the inbound HTTP request that handleGroqChat inspects.
forwardedFor is the X-Forwarded-For header value, empty when absent. -/
structure HttpRequest where
  method : String
  contentType : String
  remoteAddr : String
  forwardedFor : String
  body : BodyDecode
deriving DecidableEq

/-- Outcome of the upstream Groq call: client.Do failure (including the
30-second timeout), io.ReadAll failure on the response body, or a response with
a status code and body. -/
inductive Upstream where
  | transportFailure : Upstream
  | readFailure : Upstream
  | response : Nat → String → Upstream
deriving DecidableEq

/-- Response of handleGroqChat together with whether the upstream call was
issued and the rate-limiter state after the request. -/
structure HandlerOutput where
  status : Nat
  body : String
  upstreamCalled : Bool
  state : RLState

/-- Character class of the model-name regular expression: ASCII letters,
digits, hyphen, dot. -/
def validModelChar (c : Char) : Bool :=
  c.isAlpha || c.isDigit || c == '-' || c == '.'

/-- Model-name validation of handleGroqChat: nonempty, at most 50 characters,
and every character in the permitted class (the anchored regular expression on
a nonempty string). -/
def validModelName (m : String) : Bool :=
  !(m == "") && m.length ≤ 50 && m.data.all validModelChar

/-- Per-message validation loop of handleGroqChat: the first failing message
determines the error, content length checked before role. -/
def firstMessageError : List ChatMessage → Option String
  | [] => none
  | m :: rest =>
    if 10000 < m.content.length then some "Message content too long"
    else if m.role ≠ "user" ∧ m.role ≠ "system" ∧ m.role ≠ "assistant" then
      some "Invalid message role"
    else firstMessageError rest

/-- Client identity used for rate limiting: the X-Forwarded-For header when
present, else the connection address. -/
def clientKeyOf (req : HttpRequest) : String :=
  if req.forwardedFor ≠ "" then req.forwardedFor else req.remoteAddr

/-- The handleGroqChat resource handler: method gate, content-type gate, rate
limit, credential lookup, body decode, validation, then the proxied upstream
call. The apiKey argument is the GROQ_API_KEY environment value, empty string
when unset. -/
def handleGroqChat (st : RLState) (now : Int) (apiKey : String)
    (req : HttpRequest) (upstream : Upstream) : HandlerOutput :=
  if req.method ≠ "POST" then
    ⟨405, "Method not allowed", false, st⟩
  else if req.contentType ≠ "application/json" then
    ⟨400, "Invalid Content-Type", false, st⟩
  else
    let rl := isAllowed st (clientKeyOf req) 10 60 now
    if rl.1 = false then
      ⟨429, "Too many requests", false, rl.2⟩
    else if apiKey = "" then
      ⟨500, "Service configuration error", false, rl.2⟩
    else
      match req.body with
      | BodyDecode.invalid => ⟨400, "Invalid request body", false, rl.2⟩
      | BodyDecode.valid b =>
        if 100 < b.messages.length then
          ⟨400, "Too many messages in conversation", false, rl.2⟩
        else if ¬ validModelName b.model then
          ⟨400, "Invalid model name", false, rl.2⟩
        else
          match firstMessageError b.messages with
          | some e => ⟨400, e, false, rl.2⟩
          | none =>
            match upstream with
            | Upstream.transportFailure => ⟨500, "Failed to call Groq API", true, rl.2⟩
            | Upstream.readFailure => ⟨500, "Failed to read response", true, rl.2⟩
            | Upstream.response s respBody =>
              if s ≠ 200 then ⟨502, "External API error occurred", true, rl.2⟩
              else ⟨200, respBody, true, rl.2⟩

/-!
Client-side structural sanitizer (sanitizeDashboardData, string branch).

The TypeScript function applies five global regular-expression replacements to
a string and truncates to 1000 units.  Each replacement is embedded as a scan
over the character list that at every position either removes the leftmost
match beginning there and resumes after it, or keeps the character — exactly
the semantics of String.replace with a global pattern, where spliced-together
text is not rescanned within the same pass.  The scans take a fuel argument,
always called with the list length, so that each equation is structural.

Case-insensitive matching of the /i patterns is per character: a concrete
lowercase pattern character p matches c when c equals p or the uppercase of p
(ASCII, the only letters occurring in the patterns).
-/

/-- Case-insensitive match of one concrete lowercase pattern character. -/
def eqCI (p c : Char) : Bool :=
  c == p || c == p.toUpper

/-- Pattern list is a case-insensitive initial segment of the text. -/
def startsWithCI : List Char → List Char → Bool
  | [], _ => true
  | _ :: _, [] => false
  | p :: ps, c :: cs => eqCI p c && startsWithCI ps cs

/-- Index of the first case-insensitive occurrence of the pattern. -/
def findCI (pat : List Char) : List Char → Option Nat
  | [] => if startsWithCI pat [] then some 0 else none
  | c :: cs =>
    if startsWithCI pat (c :: cs) then some 0
    else (findCI pat cs).map (· + 1)

/-- Case-insensitive substring test. -/
def containsCI (pat l : List Char) : Bool :=
  (findCI pat l).isSome

/-- Split at the first greater-than sign: the characters before it and the
characters after it, or none when there is no such sign. -/
def splitAtGt : List Char → Option (List Char × List Char)
  | [] => none
  | c :: cs =>
    if c == '>' then some ([], cs)
    else
      match splitAtGt cs with
      | some (a, b) => some (c :: a, b)
      | none => none

/-- First replacement: remove script-tag spans.  The pattern is an opening
"<script" (case-insensitive, with no closing bracket required), a lazy span,
and the first following "</script>". -/
def stripScriptBlocks : Nat → List Char → List Char
  | 0, l => l
  | _ + 1, [] => []
  | f + 1, c :: cs =>
    if startsWithCI "<script".toList (c :: cs) then
      match findCI "</script>".toList ((c :: cs).drop 7) with
      | some i => stripScriptBlocks f (((c :: cs).drop 7).drop (i + 9))
      | none => c :: stripScriptBlocks f cs
    else c :: stripScriptBlocks f cs

/-- Second replacement: remove malformed script tags.  The pattern matches
from a bracket to the first following greater-than sign provided "script"
occurs case-insensitively in between (character classes exclude the closing
sign, so a match cannot reach past it). -/
def stripScriptTags : Nat → List Char → List Char
  | 0, l => l
  | _ + 1, [] => []
  | f + 1, c :: cs =>
    if c == '<' then
      match splitAtGt cs with
      | some (seg, rest) =>
        if containsCI "script".toList seg then stripScriptTags f rest
        else c :: stripScriptTags f cs
      | none => c :: stripScriptTags f cs
    else c :: stripScriptTags f cs

/-- Third replacement: remove case-insensitive occurrences of the literal
"javascript:" scheme. -/
def stripJsScheme : Nat → List Char → List Char
  | 0, l => l
  | _ + 1, [] => []
  | f + 1, c :: cs =>
    if startsWithCI "javascript:".toList (c :: cs) then
      stripJsScheme f ((c :: cs).drop 11)
    else c :: stripJsScheme f cs

/-- Word character of the regular-expression class. -/
def isWordChar (c : Char) : Bool :=
  c.isAlpha || c.isDigit || c == '_'

/-- Whitespace character of the regular-expression class (ASCII part). -/
def isSpaceChar (c : Char) : Bool :=
  c == ' ' || c == '\t' || c == '\n' || c == '\r' || c == '\x0b' || c == '\x0c'

/-- Length of the event-handler pattern match at the head of the list, if
any: letters o n, one or more word characters (greedy), optional whitespace,
then an equals sign. -/
def matchHandler : List Char → Option Nat
  | c1 :: c2 :: rest =>
    if eqCI 'o' c1 && eqCI 'n' c2 then
      let w := rest.takeWhile isWordChar
      if w.length == 0 then none
      else
        let rest2 := rest.drop w.length
        let sp := rest2.takeWhile isSpaceChar
        if (rest2.drop sp.length).head? == some '=' then
          some (2 + w.length + sp.length + 1)
        else none
    else none
  | _ => none

/-- Fourth replacement: remove attribute-like event-handler assignments. -/
def stripHandlers : Nat → List Char → List Char
  | 0, l => l
  | _ + 1, [] => []
  | f + 1, c :: cs =>
    match matchHandler (c :: cs) with
    | some n => stripHandlers f ((c :: cs).drop n)
    | none => c :: stripHandlers f cs

/-- Fifth replacement: remove every remaining tag, a span from a bracket to
the first following greater-than sign. -/
def stripAllTags : Nat → List Char → List Char
  | 0, l => l
  | _ + 1, [] => []
  | f + 1, c :: cs =>
    if c == '<' then
      match splitAtGt cs with
      | some (_, rest) => stripAllTags f rest
      | none => c :: stripAllTags f cs
    else c :: stripAllTags f cs

/-- The string branch of sanitizeDashboardData: the five replacements in
source order followed by truncation to the 1000-unit metadata cap. -/
def sanitizeDashboardString (s : List Char) : List Char :=
  let s1 := stripScriptBlocks s.length s
  let s2 := stripScriptTags s1.length s1
  let s3 := stripJsScheme s2.length s2
  let s4 := stripHandlers s3.length s3
  let s5 := stripAllTags s4.length s4
  s5.take 1000

/-- Plain (case-sensitive) substring test, used to state what the sanitized
output does or does not contain. -/
def containsSeq (pat : List Char) : List Char → Bool
  | [] => decide (pat = [])
  | c :: cs => decide (pat = (c :: cs).take pat.length) || containsSeq pat cs

/-- Some greater-than sign occurs in the list. -/
def hasGtSign : List Char → Bool
  | [] => false
  | c :: cs => c == '>' || hasGtSign cs

/-- There is a bracket with a greater-than sign somewhere after it, i.e. the
text still holds a complete markup tag shape. -/
def hasTagSpan : List Char → Bool
  | [] => false
  | c :: cs => (c == '<' && hasGtSign cs) || hasTagSpan cs

/-!
Client-side enrichment, message validation, and first-turn submission.
-/

/-- Panel summary extracted from the dashboard metadata. -/
structure PanelMetadata where
  id : Int
  title : String
  description : String
  type : String
deriving DecidableEq

/-- One field of a data frame as read by enrichPanelData; optional components
model possibly-undefined properties, and a values entry of none models a
values property that is not an array. -/
structure FieldData where
  name : Option String
  type : Option String
  values : Option (List Int)
deriving DecidableEq

/-- Custom metadata of a series, carrying the owning panel id when present. -/
structure CustomMeta where
  panelId : Option Int
deriving DecidableEq

/-- Series metadata object; the custom block may be absent. -/
structure SeriesMeta where
  custom : Option CustomMeta
deriving DecidableEq

/-- One series of the panel data: the metadata object may be absent, and a
fields entry of none models a fields property that is not an array. -/
structure SeriesFrame where
  meta : Option SeriesMeta
  fields : Option (List FieldData)
deriving DecidableEq

/-- Bounded field of an enriched entry. -/
structure EnrichedField where
  name : String
  type : String
  values : List Int
deriving DecidableEq

/-- Entry produced by enrichPanelData: the chosen panel summary plus the
bounded field data. -/
structure EnrichedPanelData where
  id : Int
  title : String
  description : String
  type : String
  data : List EnrichedField
deriving DecidableEq

/-- The placeholder summary used when no panel metadata is available at all. -/
def unknownMetadata : PanelMetadata :=
  ⟨0, "Unknown", "", "unknown"⟩

/-- Owning panel id of a series, following the optional chain
meta.custom.panelId. -/
def seriesPanelId (m : SeriesMeta) : Option Int :=
  m.custom.bind (fun cm => cm.panelId)

/-- The enrichPanelData function: cap to 10 series, drop a series without a
metadata object or without a fields array, correlate each remaining series to
its panel summary by id — falling back to the first summary, and to the
placeholder only when the summary list is empty — and bound the fields to 20
with at most 100 values each, truncating name and type strings. -/
def enrichPanelData (series : List SeriesFrame) (panelMetadata : List PanelMetadata) :
    List EnrichedPanelData :=
  (series.take 10).filterMap fun panel =>
    match panel.meta, panel.fields with
    | some m, some fields =>
      let metadata :=
        match panelMetadata.find? (fun item => some item.id == seriesPanelId m) with
        | some md => md
        | none =>
          match panelMetadata.head? with
          | some md => md
          | none => unknownMetadata
      some
        { id := metadata.id
          title := metadata.title
          description := metadata.description
          type := metadata.type
          data := (fields.take 20).map fun f =>
            { name := (f.name.getD "").take 100
              type := (f.type.getD "").take 50
              values := (f.values.getD []).take 100 } }
    | _, _ => none

/-- Chat message on the client; only the role and content components are kept
by validateMessages, so only those are modelled. -/
structure Message where
  role : String
  content : String
deriving DecidableEq

/-- Role is one of the three permitted values. -/
def validRole (r : String) : Bool :=
  r == "user" || r == "system" || r == "assistant"

/-- The validateMessages function, parametric in the content sanitizer it
composes with (the source uses the DOMPurify-based sanitizeMessageContent, an
external library): every message is kept, a role outside the permitted set is
silently replaced by the user role, and the content is passed through the
sanitizer. -/
def validateMessages (sanitizeContent : String → String) (messages : List Message) :
    List Message :=
  messages.map fun msg =>
    ⟨if validRole msg.role then msg.role else "user", sanitizeContent msg.content⟩

/-- Dashboard identifier validation of submitQuestion: nonempty (empty is
falsy) and every character a letter, digit, underscore, or hyphen. -/
def validDashboardUID (s : String) : Bool :=
  !(s == "") && s.data.all (fun c => c.isAlpha || c.isDigit || c == '_' || c == '-')

/-- Outcome of the extractAndEnrichData call: either the dashboard-metadata
fetch and enrichment succeed, or the call throws. -/
inductive EnrichOutcome where
  | ok : EnrichOutcome
  | fetchFail : EnrichOutcome
deriving DecidableEq

/-- Observable outcome of the first-turn submission path: whether the
dashboard-metadata request was issued, and the assistant-role error text
rendered in the conversation, if any. -/
structure SubmitOutcome where
  metadataFetchAttempted : Bool
  shownError : Option String
deriving DecidableEq

/-- Generic failure text rendered by the catch branch of submitQuestion. -/
def failedToProcessMsg : String :=
  "Failed to process your question. Please try again."

/-- Over-length warning rendered by submitQuestion. -/
def tooLongMsg : String :=
  "Your message is too long. Please keep it under 10000 characters."

/-- First-turn path of submitQuestion (empty conversation): ignore an empty
trimmed input, warn on over-length input, then validate the dashboard
identifier before the metadata fetch — an invalid identifier throws, the catch
branch renders the generic failure text, and no fetch is attempted. -/
def submitFirstTurn (trimmedInput : String) (uid : String) (fetch : EnrichOutcome) :
    SubmitOutcome :=
  if trimmedInput = "" then ⟨false, none⟩
  else if 10000 < trimmedInput.length then ⟨false, some tooLongMsg⟩
  else if ¬ validDashboardUID uid then ⟨false, some failedToProcessMsg⟩
  else
    match fetch with
    | EnrichOutcome.fetchFail => ⟨true, some failedToProcessMsg⟩
    | EnrichOutcome.ok => ⟨true, none⟩

/-!
Concrete fixtures used by witnesses and counterexamples.
-/

/-- Well-formed request body with one user message. -/
def bodyOK : ReqBody :=
  ⟨"llama-3.3-70b-versatile", [⟨"user", "hello"⟩]⟩

/-- Request body with exactly 100 valid messages. -/
def body100 : ReqBody :=
  ⟨"llama-3.3-70b-versatile", List.replicate 100 ⟨"user", "t"⟩⟩

/-- Request body with 101 valid messages. -/
def body101 : ReqBody :=
  ⟨"llama-3.3-70b-versatile", List.replicate 101 ⟨"user", "t"⟩⟩

/-- Well-formed POST request carrying bodyOK. -/
def reqOK : HttpRequest :=
  ⟨"POST", "application/json", "203.0.113.7", "", BodyDecode.valid bodyOK⟩

/-- POST request whose body fails to decode. -/
def reqInvalidBody : HttpRequest :=
  ⟨"POST", "application/json", "203.0.113.7", "", BodyDecode.invalid⟩

/-- POST request carrying body100. -/
def req100 : HttpRequest :=
  ⟨"POST", "application/json", "203.0.113.7", "", BodyDecode.valid body100⟩

/-- POST request carrying body101. -/
def req101 : HttpRequest :=
  ⟨"POST", "application/json", "203.0.113.7", "", BodyDecode.valid body101⟩

/-!
Helper lemmas about the rate limiter.
-/

/-- Pruning keeps a list all of whose entries lie inside the window. -/
lemma pruneTimes_eq_self (cutoff : Int) (l : List Int) (h : ∀ t ∈ l, cutoff < t) :
    pruneTimes cutoff l = l := by
  simp only [pruneTimes]
  rw [List.filter_eq_self]
  intro a ha
  simpa using h a ha

/-- A filtered list is strictly shorter exactly when some element is dropped. -/
lemma length_filter_lt_iff (p : Int → Bool) (l : List Int) :
    (l.filter p).length < l.length ↔ ∃ a ∈ l, p a = false := by
  induction l with
  | nil => simp
  | cons a l ih =>
    by_cases hp : p a = true
    · simp only [List.filter_cons, hp, if_true, List.length_cons, Nat.add_lt_add_iff_right, ih]
      constructor
      · rintro ⟨x, hx, hpx⟩
        exact ⟨x, List.mem_cons_of_mem a hx, hpx⟩
      · rintro ⟨x, hx, hpx⟩
        rcases List.mem_cons.1 hx with rfl | hx
        · rw [hp] at hpx; cases hpx
        · exact ⟨x, hx, hpx⟩
    · constructor
      · intro _
        exact ⟨a, List.mem_cons_self a l, Bool.eq_false_iff.2 hp⟩
      · intro _
        have h1 : (List.filter p (a :: l)).length = (List.filter p l).length := by
          simp [List.filter_cons, Bool.eq_false_iff.2 hp]
        rw [h1, List.length_cons]
        exact Nat.lt_succ_of_le (List.length_filter_le p l)

/-- Admission is equivalent to the pruned count being below the cap. -/
lemma isAllowed_fst_iff (st : RLState) (c : String) (N : Nat) (w now : Int) :
    (isAllowed st c N w now).1 = true ↔ (pruneTimes (now - w) (st c)).length < N := by
  by_cases hc : N ≤ (pruneTimes (now - w) (st c)).length
  · simp [isAllowed, hc, Nat.not_lt.2 hc]
  · simp [isAllowed, hc, Nat.lt_of_not_le hc]

/-- A rejected call leaves the limiter state untouched. -/
lemma isAllowed_reject_state (st : RLState) (c : String) (N : Nat) (w now : Int)
    (h : (isAllowed st c N w now).1 = false) : (isAllowed st c N w now).2 = st := by
  by_cases hc : N ≤ (pruneTimes (now - w) (st c)).length
  · simp [isAllowed, hc]
  · simp [isAllowed, hc] at h

/-- Invariant run of the limiter: starting from a state whose record for the
client is acc, a batch of calls all within one window of everything recorded
and of each other is admitted in full, and the record accumulates the call
times in order. -/
lemma runAllowedCalls_admit_all (c : String) (N : Nat) (w : Int) :
    ∀ (ts acc : List Int) (st : RLState), st c = acc →
      (∀ s ∈ acc ++ ts, ∀ t ∈ ts, t - s < w) →
      acc.length + ts.length ≤ N →
      (runAllowedCalls c N w ts st).1 = List.replicate ts.length true ∧
      (runAllowedCalls c N w ts st).2 c = acc ++ ts := by
  intro ts
  induction ts with
  | nil =>
    intro acc st hst _ _
    simp [runAllowedCalls, hst]
  | cons t ts ih =>
    intro acc st hst hspan hlen
    have hlen1 : acc.length + (ts.length + 1) ≤ N := by
      simpa [List.length_cons] using hlen
    have hprune : pruneTimes (t - w) (st c) = acc := by
      rw [hst]
      apply pruneTimes_eq_self
      intro s hs
      have := hspan s (List.mem_append.2 (Or.inl hs)) t (List.mem_cons_self t ts)
      omega
    have hlt : ¬ N ≤ acc.length := by omega
    have hiA : isAllowed st c N w t = (true, fun k => if k = c then acc ++ [t] else st k) := by
      simp [isAllowed, hprune, hlt]
    have hst' : (fun k => if k = c then acc ++ [t] else st k) c = acc ++ [t] := by simp
    have hspan' : ∀ s ∈ (acc ++ [t]) ++ ts, ∀ u ∈ ts, u - s < w := by
      intro s hs u hu
      have hs2 : s ∈ acc ++ t :: ts := by
        rcases List.mem_append.1 hs with h1 | h1
        · rcases List.mem_append.1 h1 with h2 | h2
          · exact List.mem_append.2 (Or.inl h2)
          · simp only [List.mem_singleton] at h2
            subst h2
            exact List.mem_append.2 (Or.inr (List.mem_cons_self s ts))
        · exact List.mem_append.2 (Or.inr (List.mem_cons_of_mem t h1))
      exact hspan s hs2 u (List.mem_cons_of_mem t hu)
    have hlen' : (acc ++ [t]).length + ts.length ≤ N := by
      simp only [List.length_append, List.length_singleton]
      omega
    obtain ⟨h1, h2⟩ :=
      ih (acc ++ [t]) (fun k => if k = c then acc ++ [t] else st k) hst' hspan' hlen'
    constructor
    · simp only [runAllowedCalls, hiA, List.length_cons, List.replicate_succ]
      exact congrArg (true :: ·) h1
    · simp only [runAllowedCalls, hiA]
      rw [h2, List.append_assoc, List.singleton_append]

/-- C5: a limiter configured for N requests per window admits exactly the
first N calls within any window (they are all admitted and all recorded, and
with N recorded a further call is admitted exactly when the oldest retained
timestamp has aged out of the window, so within the window the N+1-th call is
rejected); a rejected call does not mutate the limiter state; and through the
gateway, with the default policy of 10 requests per 60 seconds, a rejected
call surfaces as a 429 response with no upstream call. -/
theorem rateLimiter_sliding_window_admits_N
    (c : String) (N : Nat) (w : Int) (ts : List Int)
    (hspan : ∀ s ∈ ts, ∀ t ∈ ts, t - s < w)
    (hlen : ts.length ≤ N) :
    (runAllowedCalls c N w ts emptyRL).1 = List.replicate ts.length true
    ∧ (runAllowedCalls c N w ts emptyRL).2 c = ts
    ∧ (∀ (st₀ : RLState) (now : Int), st₀ c = ts → ts.length = N →
        ((isAllowed st₀ c N w now).1 = true ↔ ∃ t ∈ ts, t ≤ now - w))
    ∧ (∀ (st : RLState) (now : Int), (isAllowed st c N w now).1 = false →
        (isAllowed st c N w now).2 = st)
    ∧ (∀ (st : RLState) (now : Int) (apiKey : String) (req : HttpRequest) (up : Upstream),
        req.method = "POST" → req.contentType = "application/json" →
        clientKeyOf req = c → (isAllowed st c 10 60 now).1 = false →
        (handleGroqChat st now apiKey req up).status = 429
        ∧ (handleGroqChat st now apiKey req up).body = "Too many requests"
        ∧ (handleGroqChat st now apiKey req up).upstreamCalled = false
        ∧ (handleGroqChat st now apiKey req up).state = st) := by
  have hrun := runAllowedCalls_admit_all c N w ts [] emptyRL rfl (by simpa using hspan)
    (by simpa using hlen)
  refine ⟨by simpa using hrun.1, by simpa using hrun.2, ?_, ?_, ?_⟩
  · intro st₀ now hst hN
    rw [isAllowed_fst_iff, hst]
    simp only [pruneTimes]
    rw [← hN, length_filter_lt_iff]
    constructor
    · rintro ⟨a, ha, hpa⟩
      refine ⟨a, ha, ?_⟩
      have := of_decide_eq_false hpa
      omega
    · rintro ⟨a, ha, hpa⟩
      refine ⟨a, ha, decide_eq_false ?_⟩
      omega
  · intro st now h
    exact isAllowed_reject_state st c N w now h
  · intro st now apiKey req up hm hct hck hrl
    have hrl' : (isAllowed st (clientKeyOf req) 10 60 now).1 = false := by rw [hck]; exact hrl
    have hstate : (isAllowed st (clientKeyOf req) 10 60 now).2 = st := by
      rw [hck]
      exact isAllowed_reject_state st c 10 60 now hrl
    refine ⟨?_, ?_, ?_, ?_⟩ <;> simp [handleGroqChat, hm, hct, hrl', hstate]

/-- C5 witness: ten calls at time 0 from one client are all admitted from the
empty limiter; in the resulting state the 11th call at time 30 (inside the
60-second window) is rejected by the gateway with a 429 and an unchanged
limiter state. -/
theorem rateLimiter_sliding_window_admits_N_witness :
    (∀ s ∈ List.replicate 10 (0 : Int), ∀ t ∈ List.replicate 10 (0 : Int), t - s < 60)
    ∧ (List.replicate 10 (0 : Int)).length ≤ 10
    ∧ (runAllowedCalls "203.0.113.7" 10 60 (List.replicate 10 0) emptyRL).1 =
        List.replicate 10 true
    ∧ (runAllowedCalls "203.0.113.7" 10 60 (List.replicate 10 0) emptyRL).2 "203.0.113.7" =
        List.replicate 10 0
    ∧ (handleGroqChat ((runAllowedCalls "203.0.113.7" 10 60 (List.replicate 10 0) emptyRL).2)
        30 "secret" reqInvalidBody Upstream.transportFailure).status = 429
    ∧ (handleGroqChat ((runAllowedCalls "203.0.113.7" 10 60 (List.replicate 10 0) emptyRL).2)
        30 "secret" reqInvalidBody Upstream.transportFailure).body = "Too many requests"
    ∧ (handleGroqChat ((runAllowedCalls "203.0.113.7" 10 60 (List.replicate 10 0) emptyRL).2)
        30 "secret" reqInvalidBody Upstream.transportFailure).upstreamCalled = false := by
  have h := rateLimiter_sliding_window_admits_N "203.0.113.7" 10 60
    (List.replicate 10 (0 : Int)) (by decide) (by decide)
  have h429 := h.2.2.2.2 ((runAllowedCalls "203.0.113.7" 10 60 (List.replicate 10 0) emptyRL).2)
    30 "secret" reqInvalidBody Upstream.transportFailure rfl rfl (by decide) (by decide)
  exact ⟨by decide, by decide, h.1, h.2.1, h429.1, h429.2.1, h429.2.2.1⟩

/-!
Gateway behaviour on upstream errors and on validation failures.
-/

/-- C1 counterexample: a request that passes validation and whose upstream
call fails at the transport level receives status 500, not a 502-class
status. -/
theorem upstream_transport_failure_counterexample :
    (handleGroqChat emptyRL 0 "secret" reqOK Upstream.transportFailure).status = 500
    ∧ (handleGroqChat emptyRL 0 "secret" reqOK Upstream.transportFailure).status ≠ 502 := by
  constructor
  · rfl
  · decide

/-- C1 amended: for a request that passes validation, a transport-level
upstream failure (including timeout) yields a 500 response with the fixed
generic text, a response-read failure yields a 500 with its fixed generic
text, and a non-success upstream status yields a 502 with a fixed generic
text; in every case the response body is a constant, so no transport detail
and no upstream status or body is echoed to the caller. -/
theorem upstream_error_statuses
    (st : RLState) (now : Int) (apiKey : String) (req : HttpRequest) (b : ReqBody)
    (hm : req.method = "POST") (hct : req.contentType = "application/json")
    (hrate : (isAllowed st (clientKeyOf req) 10 60 now).1 = true)
    (hkey : apiKey ≠ "") (hb : req.body = BodyDecode.valid b)
    (hcount : b.messages.length ≤ 100) (hmodel : validModelName b.model = true)
    (hmsgs : firstMessageError b.messages = none) :
    ((handleGroqChat st now apiKey req Upstream.transportFailure).status = 500
      ∧ (handleGroqChat st now apiKey req Upstream.transportFailure).body =
          "Failed to call Groq API"
      ∧ (handleGroqChat st now apiKey req Upstream.transportFailure).upstreamCalled = true)
    ∧ ((handleGroqChat st now apiKey req Upstream.readFailure).status = 500
      ∧ (handleGroqChat st now apiKey req Upstream.readFailure).body =
          "Failed to read response")
    ∧ (∀ (s : Nat) (respBody : String), s ≠ 200 →
        (handleGroqChat st now apiKey req (Upstream.response s respBody)).status = 502
        ∧ (handleGroqChat st now apiKey req (Upstream.response s respBody)).body =
            "External API error occurred") := by
  have hc' : ¬ (100 < b.messages.length) := Nat.not_lt.2 hcount
  refine ⟨⟨?_, ?_, ?_⟩, ⟨?_, ?_⟩, ?_⟩
  · simp [handleGroqChat, hm, hct, hrate, hkey, hb, hc', hmodel, hmsgs]
  · simp [handleGroqChat, hm, hct, hrate, hkey, hb, hc', hmodel, hmsgs]
  · simp [handleGroqChat, hm, hct, hrate, hkey, hb, hc', hmodel, hmsgs]
  · simp [handleGroqChat, hm, hct, hrate, hkey, hb, hc', hmodel, hmsgs]
  · simp [handleGroqChat, hm, hct, hrate, hkey, hb, hc', hmodel, hmsgs]
  · intro s respBody hs
    constructor <;> simp [handleGroqChat, hm, hct, hrate, hkey, hb, hc', hmodel, hmsgs, hs]

/-- C1 witness: the amended statement instantiated at a concrete valid
request. -/
theorem upstream_error_statuses_witness :
    reqOK.method = "POST"
    ∧ reqOK.contentType = "application/json"
    ∧ (isAllowed emptyRL (clientKeyOf reqOK) 10 60 0).1 = true
    ∧ "secret" ≠ ""
    ∧ reqOK.body = BodyDecode.valid bodyOK
    ∧ bodyOK.messages.length ≤ 100
    ∧ validModelName bodyOK.model = true
    ∧ firstMessageError bodyOK.messages = none
    ∧ (handleGroqChat emptyRL 0 "secret" reqOK Upstream.transportFailure).status = 500
    ∧ (handleGroqChat emptyRL 0 "secret" reqOK (Upstream.response 503 "boom")).status = 502
    ∧ (handleGroqChat emptyRL 0 "secret" reqOK (Upstream.response 503 "boom")).body =
        "External API error occurred" := by
  have h := upstream_error_statuses emptyRL 0 "secret" reqOK bodyOK rfl rfl (by decide)
    (by decide) rfl (by decide) (by decide) (by decide)
  have h502 := h.2.2 503 "boom" (by decide)
  exact ⟨rfl, rfl, by decide, by decide, rfl, by decide, by decide, by decide,
    h.1.1, h502.1, h502.2⟩

/-- C2 counterexample: a request whose body fails validation (undecodable
body) receives the 500 configuration error, not a 400-class validation error,
when the credential is absent — the credential is read before validation. -/
theorem credential_before_validation_counterexample :
    (handleGroqChat emptyRL 0 "" reqInvalidBody Upstream.transportFailure).status = 500
    ∧ (handleGroqChat emptyRL 0 "" reqInvalidBody Upstream.transportFailure).body =
        "Service configuration error"
    ∧ (handleGroqChat emptyRL 0 "" reqInvalidBody Upstream.transportFailure).status ≠ 400 := by
  refine ⟨rfl, rfl, by decide⟩

/-- C2 amended: validation failures are answered with their specific
400-class reason and no upstream call, but only when the credential is
present; the credential is read after the method, content-type and rate-limit
checks and before body validation, so when it is absent every request that
reaches that point receives the 500 configuration error regardless of body
validity, and the possible validation error texts are exactly the specific
reasons. -/
theorem credential_read_before_validation
    (st : RLState) (now : Int) (req : HttpRequest) (up : Upstream)
    (hm : req.method = "POST") (hct : req.contentType = "application/json")
    (hrate : (isAllowed st (clientKeyOf req) 10 60 now).1 = true) :
    ((handleGroqChat st now "" req up).status = 500
      ∧ (handleGroqChat st now "" req up).body = "Service configuration error"
      ∧ (handleGroqChat st now "" req up).upstreamCalled = false)
    ∧ (∀ apiKey : String, apiKey ≠ "" → req.body = BodyDecode.invalid →
        (handleGroqChat st now apiKey req up).status = 400
        ∧ (handleGroqChat st now apiKey req up).body = "Invalid request body"
        ∧ (handleGroqChat st now apiKey req up).upstreamCalled = false)
    ∧ (∀ (apiKey : String) (b : ReqBody), apiKey ≠ "" → req.body = BodyDecode.valid b →
        100 < b.messages.length →
        (handleGroqChat st now apiKey req up).status = 400
        ∧ (handleGroqChat st now apiKey req up).body = "Too many messages in conversation"
        ∧ (handleGroqChat st now apiKey req up).upstreamCalled = false)
    ∧ (∀ (apiKey : String) (b : ReqBody), apiKey ≠ "" → req.body = BodyDecode.valid b →
        b.messages.length ≤ 100 → validModelName b.model = false →
        (handleGroqChat st now apiKey req up).status = 400
        ∧ (handleGroqChat st now apiKey req up).body = "Invalid model name"
        ∧ (handleGroqChat st now apiKey req up).upstreamCalled = false)
    ∧ (∀ (apiKey : String) (b : ReqBody) (e : String), apiKey ≠ "" →
        req.body = BodyDecode.valid b → b.messages.length ≤ 100 →
        validModelName b.model = true → firstMessageError b.messages = some e →
        (handleGroqChat st now apiKey req up).status = 400
        ∧ (handleGroqChat st now apiKey req up).body = e
        ∧ (handleGroqChat st now apiKey req up).upstreamCalled = false)
    ∧ (∀ (msgs : List ChatMessage) (e : String), firstMessageError msgs = some e →
        e = "Message content too long" ∨ e = "Invalid message role") := by
  refine ⟨?_, ?_, ?_, ?_, ?_, ?_⟩
  · refine ⟨?_, ?_, ?_⟩ <;> simp [handleGroqChat, hm, hct, hrate]
  · intro apiKey hkey hb
    refine ⟨?_, ?_, ?_⟩ <;> simp [handleGroqChat, hm, hct, hrate, hkey, hb]
  · intro apiKey b hkey hb hcount
    refine ⟨?_, ?_, ?_⟩ <;> simp [handleGroqChat, hm, hct, hrate, hkey, hb, hcount]
  · intro apiKey b hkey hb hcount hmodel
    have hc' : ¬ (100 < b.messages.length) := Nat.not_lt.2 hcount
    refine ⟨?_, ?_, ?_⟩ <;> simp [handleGroqChat, hm, hct, hrate, hkey, hb, hc', hmodel]
  · intro apiKey b e hkey hb hcount hmodel hmsg
    have hc' : ¬ (100 < b.messages.length) := Nat.not_lt.2 hcount
    refine ⟨?_, ?_, ?_⟩ <;> simp [handleGroqChat, hm, hct, hrate, hkey, hb, hc', hmodel, hmsg]
  · intro msgs
    induction msgs with
    | nil => intro e he; simp [firstMessageError] at he
    | cons m rest ih =>
      intro e he
      by_cases h1 : 10000 < m.content.length
      · simp [firstMessageError, h1] at he
        exact Or.inl he.symm
      · by_cases h2 : m.role ≠ "user" ∧ m.role ≠ "system" ∧ m.role ≠ "assistant"
        · simp [firstMessageError, h1, h2] at he
          exact Or.inr he.symm
        · simp [firstMessageError, h1, h2] at he
          exact ih e he

/-- C2 witness: the amended statement instantiated at a concrete request with
an undecodable body, with and without the credential. -/
theorem credential_read_before_validation_witness :
    reqInvalidBody.method = "POST"
    ∧ reqInvalidBody.contentType = "application/json"
    ∧ (isAllowed emptyRL (clientKeyOf reqInvalidBody) 10 60 0).1 = true
    ∧ (handleGroqChat emptyRL 0 "" reqInvalidBody Upstream.transportFailure).status = 500
    ∧ (handleGroqChat emptyRL 0 "secret" reqInvalidBody Upstream.transportFailure).status = 400
    ∧ (handleGroqChat emptyRL 0 "secret" reqInvalidBody Upstream.transportFailure).body =
        "Invalid request body" := by
  have h := credential_read_before_validation emptyRL 0 reqInvalidBody
    Upstream.transportFailure rfl rfl (by decide)
  have h400 := h.2.1 "secret" (by decide) rfl
  exact ⟨rfl, rfl, by decide, h.1.1, h400.1, h400.2.1⟩

/-- C9: a well-formed decoded request with an empty messages list passes every
validation check of the gateway and is forwarded upstream; with a successful
upstream response its body is relayed with status 200. -/
theorem empty_messages_forwarded
    (st : RLState) (now : Int) (apiKey : String) (req : HttpRequest) (model : String)
    (hm : req.method = "POST") (hct : req.contentType = "application/json")
    (hrate : (isAllowed st (clientKeyOf req) 10 60 now).1 = true)
    (hkey : apiKey ≠ "") (hb : req.body = BodyDecode.valid ⟨model, []⟩)
    (hmodel : validModelName model = true) :
    (∀ up : Upstream, (handleGroqChat st now apiKey req up).upstreamCalled = true)
    ∧ (∀ respBody : String,
        (handleGroqChat st now apiKey req (Upstream.response 200 respBody)).status = 200
        ∧ (handleGroqChat st now apiKey req (Upstream.response 200 respBody)).body = respBody) := by
  constructor
  · intro up
    cases up <;> simp [handleGroqChat, hm, hct, hrate, hkey, hb, hmodel, firstMessageError]
    next s respBody => by_cases hs : s = 200 <;> simp [hs]
  · intro respBody
    constructor <;> simp [handleGroqChat, hm, hct, hrate, hkey, hb, hmodel, firstMessageError]

/-- C9 witness: the statement instantiated at a concrete request whose
messages list is empty. -/
theorem empty_messages_forwarded_witness :
    (isAllowed emptyRL "203.0.113.7" 10 60 0).1 = true
    ∧ validModelName "llama-3.3-70b-versatile" = true
    ∧ (handleGroqChat emptyRL 0 "secret"
        ⟨"POST", "application/json", "203.0.113.7", "",
          BodyDecode.valid ⟨"llama-3.3-70b-versatile", []⟩⟩
        Upstream.transportFailure).upstreamCalled = true
    ∧ (handleGroqChat emptyRL 0 "secret"
        ⟨"POST", "application/json", "203.0.113.7", "",
          BodyDecode.valid ⟨"llama-3.3-70b-versatile", []⟩⟩
        (Upstream.response 200 "ok")).status = 200 := by
  have h := empty_messages_forwarded emptyRL 0 "secret"
    ⟨"POST", "application/json", "203.0.113.7", "",
      BodyDecode.valid ⟨"llama-3.3-70b-versatile", []⟩⟩
    "llama-3.3-70b-versatile" rfl rfl (by decide) (by decide) rfl (by decide)
  exact ⟨by decide, by decide, h.1 Upstream.transportFailure, (h.2 "ok").1⟩

/-- C6: the validator accepts values exactly at the caps and rejects one past
them — content of exactly 10000 units passes the message check and 10001
fails it; a conversation of exactly 100 messages is forwarded upstream and
101 draws the specific 400; a model name of exactly 50 permitted characters
is accepted, 51 characters are rejected, and any character outside the
permitted class is rejected. -/
theorem validator_boundary_exactness :
    (∀ s : String, s.length = 10000 → firstMessageError [⟨"user", s⟩] = none)
    ∧ (∀ s : String, s.length = 10001 →
        firstMessageError [⟨"user", s⟩] = some "Message content too long")
    ∧ (∀ (st : RLState) (now : Int) (apiKey : String) (req : HttpRequest)
        (model : String) (msgs : List ChatMessage) (up : Upstream),
        req.method = "POST" → req.contentType = "application/json" →
        (isAllowed st (clientKeyOf req) 10 60 now).1 = true → apiKey ≠ "" →
        req.body = BodyDecode.valid ⟨model, msgs⟩ → validModelName model = true →
        firstMessageError msgs = none → msgs.length = 100 →
        (handleGroqChat st now apiKey req up).upstreamCalled = true)
    ∧ (∀ (st : RLState) (now : Int) (apiKey : String) (req : HttpRequest)
        (model : String) (msgs : List ChatMessage) (up : Upstream),
        req.method = "POST" → req.contentType = "application/json" →
        (isAllowed st (clientKeyOf req) 10 60 now).1 = true → apiKey ≠ "" →
        req.body = BodyDecode.valid ⟨model, msgs⟩ → msgs.length = 101 →
        (handleGroqChat st now apiKey req up).status = 400
        ∧ (handleGroqChat st now apiKey req up).body = "Too many messages in conversation")
    ∧ (∀ m : String, m.length = 50 → (∀ c ∈ m.data, validModelChar c = true) →
        validModelName m = true)
    ∧ (∀ m : String, m.length = 51 → validModelName m = false)
    ∧ (∀ (m : String) (c : Char), c ∈ m.data → validModelChar c = false →
        validModelName m = false) := by
  refine ⟨?_, ?_, ?_, ?_, ?_, ?_, ?_⟩
  · intro s h
    simp [firstMessageError, h]
  · intro s h
    simp [firstMessageError, h]
  · intro st now apiKey req model msgs up hm hct hrate hkey hb hmodel hmsgs hlen
    have hc' : ¬ (100 < msgs.length) := by omega
    cases up <;>
      simp [handleGroqChat, hm, hct, hrate, hkey, hb, hmodel, hmsgs, hc']
    next s respBody => by_cases hs : s = 200 <;> simp [hs]
  · intro st now apiKey req model msgs up hm hct hrate hkey hb hlen
    have hc : 100 < msgs.length := by omega
    constructor <;> simp [handleGroqChat, hm, hct, hrate, hkey, hb, hc]
  · intro m hlen hall
    have hne : ¬ (m == "") := by
      intro hcontra
      have : m = "" := by simpa using hcontra
      subst this
      simp at hlen
    simp [validModelName, hlen, hne, List.all_eq_true]
    intro c hc
    exact hall c hc
  · intro m hlen
    simp [validModelName, hlen]
  · intro m c hc hbad
    cases hall : m.data.all validModelChar
    · simp [validModelName, hall]
    · exact absurd (List.all_eq_true.1 hall c hc) (by simp [hbad])

/-- C6 witness: the boundary statement instantiated at concrete inputs of the
exact boundary sizes. -/
theorem validator_boundary_exactness_witness :
    (String.mk (List.replicate 10000 'a')).length = 10000
    ∧ firstMessageError [⟨"user", String.mk (List.replicate 10000 'a')⟩] = none
    ∧ (String.mk (List.replicate 10001 'a')).length = 10001
    ∧ firstMessageError [⟨"user", String.mk (List.replicate 10001 'a')⟩] =
        some "Message content too long"
    ∧ body100.messages.length = 100
    ∧ (handleGroqChat emptyRL 0 "secret" req100 Upstream.transportFailure).upstreamCalled = true
    ∧ body101.messages.length = 101
    ∧ (handleGroqChat emptyRL 0 "secret" req101 Upstream.transportFailure).status = 400
    ∧ (handleGroqChat emptyRL 0 "secret" req101 Upstream.transportFailure).body =
        "Too many messages in conversation"
    ∧ (String.mk (List.replicate 50 'a')).length = 50
    ∧ validModelName (String.mk (List.replicate 50 'a')) = true
    ∧ (String.mk (List.replicate 51 'a')).length = 51
    ∧ validModelName (String.mk (List.replicate 51 'a')) = false
    ∧ ' ' ∈ "invalid model name".data
    ∧ validModelChar ' ' = false
    ∧ validModelName "invalid model name" = false := by
  have e1 : (String.mk (List.replicate 10000 'a')).length = 10000 := by
    have h1 : (String.mk (List.replicate 10000 'a')).length =
        (List.replicate 10000 'a').length := rfl
    rw [h1, List.length_replicate]
  have e2 : (String.mk (List.replicate 10001 'a')).length = 10001 := by
    have h1 : (String.mk (List.replicate 10001 'a')).length =
        (List.replicate 10001 'a').length := rfl
    rw [h1, List.length_replicate]
  have e3 : (String.mk (List.replicate 50 'a')).length = 50 := by
    have h1 : (String.mk (List.replicate 50 'a')).length =
        (List.replicate 50 'a').length := rfl
    rw [h1, List.length_replicate]
  have e4 : (String.mk (List.replicate 51 'a')).length = 51 := by
    have h1 : (String.mk (List.replicate 51 'a')).length =
        (List.replicate 51 'a').length := rfl
    rw [h1, List.length_replicate]
  have h := validator_boundary_exactness
  have h100 := h.2.2.1 emptyRL 0 "secret" req100 "llama-3.3-70b-versatile"
    (List.replicate 100 ⟨"user", "t"⟩) Upstream.transportFailure rfl rfl (by decide)
    (by decide) rfl (by decide) (by decide) (by simp [List.length_replicate])
  have h101 := h.2.2.2.1 emptyRL 0 "secret" req101 "llama-3.3-70b-versatile"
    (List.replicate 101 ⟨"user", "t"⟩) Upstream.transportFailure rfl rfl (by decide)
    (by decide) rfl (by simp [List.length_replicate])
  refine ⟨e1, h.1 _ e1, e2, h.2.1 _ e2, by simp [body100, List.length_replicate], h100,
    by simp [body101, List.length_replicate], h101.1, h101.2, e3,
    h.2.2.2.2.1 _ e3 (by decide), e4, h.2.2.2.2.2.1 _ e4, by decide, by decide,
    h.2.2.2.2.2.2 "invalid model name" ' ' (by decide) (by decide)⟩

/-- C8: a dashboard identifier failing the strict identifier class makes the
first-turn submission abort before any metadata fetch, rendering the generic
failure text, whatever the fetch would have returned. -/
theorem invalid_uid_aborts_before_fetch
    (input uid : String) (fetch : EnrichOutcome)
    (h1 : input ≠ "") (h2 : input.length ≤ 10000) (h3 : validDashboardUID uid = false) :
    submitFirstTurn input uid fetch = ⟨false, some failedToProcessMsg⟩ := by
  have h2' : ¬ (10000 < input.length) := by omega
  simp [submitFirstTurn, h1, h2', h3]

/-- C8 witness: the scenario with the identifier containing punctuation. -/
theorem invalid_uid_aborts_before_fetch_witness :
    ("hello" : String) ≠ ""
    ∧ ("hello" : String).length ≤ 10000
    ∧ validDashboardUID "invalid@id!" = false
    ∧ submitFirstTurn "hello" "invalid@id!" EnrichOutcome.ok =
        ⟨false, some failedToProcessMsg⟩ := by
  exact ⟨by decide, by decide, by decide,
    invalid_uid_aborts_before_fetch "hello" "invalid@id!" EnrichOutcome.ok
      (by decide) (by decide) (by decide)⟩

/-- C10: validateMessages never rejects a message — the output has one entry
per input entry, every output role is in the permitted set, the entry at each
position carries the input role (or the user role when the input role was
outside the set) and the sanitized content, and a message with an invalid
role reappears with the user role and sanitized content. -/
theorem validateMessages_never_rejects (f : String → String) (msgs : List Message) :
    (validateMessages f msgs).length = msgs.length
    ∧ (∀ i : Nat, (validateMessages f msgs)[i]? =
        (msgs[i]?).map fun m =>
          Message.mk (if validRole m.role then m.role else "user") (f m.content))
    ∧ (∀ m' ∈ validateMessages f msgs, validRole m'.role = true)
    ∧ (∀ m ∈ msgs, validRole m.role = false →
        Message.mk "user" (f m.content) ∈ validateMessages f msgs) := by
  refine ⟨by simp [validateMessages], ?_, ?_, ?_⟩
  · intro i
    simp [validateMessages, List.getElem?_map]
  · intro m' hm'
    simp only [validateMessages, List.mem_map] at hm'
    obtain ⟨m, _, rfl⟩ := hm'
    by_cases h : validRole m.role = true
    · show validRole (if validRole m.role = true then m.role else "user") = true
      rw [if_pos h]
      exact h
    · have h' : validRole m.role = false := Bool.eq_false_iff.2 h
      show validRole (if validRole m.role = true then m.role else "user") = true
      rw [h', if_neg (by simp)]
      decide
  · intro m hm hrole
    simp only [validateMessages, List.mem_map]
    exact ⟨m, hm, by simp [hrole]⟩

/-- C10 witness: a message with role hacker is kept, with the role replaced
by user and the content passed through the sanitizer. -/
theorem validateMessages_never_rejects_witness :
    validRole "hacker" = false
    ∧ validateMessages (fun s => s) [⟨"hacker", "hi"⟩] = [⟨"user", "hi"⟩]
    ∧ (validateMessages (fun s => s) [⟨"hacker", "hi"⟩]).length = 1
    ∧ Message.mk "user" "hi" ∈ validateMessages (fun s => s) [⟨"hacker", "hi"⟩] := by
  have h := validateMessages_never_rejects (fun s => s) [⟨"hacker", "hi"⟩]
  exact ⟨by decide, by decide, h.1,
    h.2.2.2 ⟨"hacker", "hi"⟩ (by decide) (by decide)⟩

/-- C7 counterexample: a series whose owning panel is not found by metadata
correlation does not get the unknown placeholder — with a nonempty metadata
list it silently inherits the first panel's summary. -/
theorem enrich_unknown_placeholder_counterexample :
    (([⟨5, "CPU Usage", "cpu description", "graph"⟩] : List PanelMetadata).find?
        (fun item => some item.id == seriesPanelId ⟨some ⟨some 7⟩⟩) = none)
    ∧ enrichPanelData [⟨some ⟨some ⟨some 7⟩⟩, some []⟩]
        [⟨5, "CPU Usage", "cpu description", "graph"⟩] =
        [⟨5, "CPU Usage", "cpu description", "graph", []⟩]
    ∧ ("CPU Usage" : String) ≠ "Unknown" := by
  exact ⟨by decide, by decide, by decide⟩

/-- C7 amended: when metadata correlation fails for a series (within the
10-series cap, with a metadata object and a fields array), the resulting
entry uses the first panel summary of the metadata list, and the Unknown
placeholder only when that list is empty. -/
theorem enrich_correlation_first_panel_fallback
    (series : List SeriesFrame) (pm : List PanelMetadata) (panel : SeriesFrame)
    (m : SeriesMeta) (fs : List FieldData)
    (hmem : panel ∈ series.take 10) (hm : panel.meta = some m) (hf : panel.fields = some fs)
    (hfind : pm.find? (fun item => some item.id == seriesPanelId m) = none) :
    EnrichedPanelData.mk (pm.headD unknownMetadata).id (pm.headD unknownMetadata).title
        (pm.headD unknownMetadata).description (pm.headD unknownMetadata).type
        ((fs.take 20).map fun f =>
          ⟨(f.name.getD "").take 100, (f.type.getD "").take 50, (f.values.getD []).take 100⟩)
      ∈ enrichPanelData series pm := by
  have hmd : (match pm.head? with
      | some md => md
      | none => unknownMetadata) = pm.headD unknownMetadata := by
    cases pm <;> rfl
  unfold enrichPanelData
  apply List.mem_filterMap.2
  refine ⟨panel, hmem, ?_⟩
  simp only [hm, hf, hfind, hmd]

/-- C7 witness: the amended statement at a single uncorrelated series and a
one-entry metadata list. -/
theorem enrich_correlation_first_panel_fallback_witness :
    (⟨some ⟨some ⟨some 7⟩⟩, some []⟩ : SeriesFrame) ∈
        ([⟨some ⟨some ⟨some 7⟩⟩, some []⟩] : List SeriesFrame).take 10
    ∧ (⟨some ⟨some ⟨some 7⟩⟩, some []⟩ : SeriesFrame).meta = some ⟨some ⟨some 7⟩⟩
    ∧ ([⟨5, "CPU Usage", "cpu description", "graph"⟩] : List PanelMetadata).find?
        (fun item => some item.id == seriesPanelId ⟨some ⟨some 7⟩⟩) = none
    ∧ EnrichedPanelData.mk 5 "CPU Usage" "cpu description" "graph" [] ∈
        enrichPanelData [⟨some ⟨some ⟨some 7⟩⟩, some []⟩]
          [⟨5, "CPU Usage", "cpu description", "graph"⟩] := by
  have h := enrich_correlation_first_panel_fallback
    [⟨some ⟨some ⟨some 7⟩⟩, some []⟩] [⟨5, "CPU Usage", "cpu description", "graph"⟩]
    ⟨some ⟨some ⟨some 7⟩⟩, some []⟩ ⟨some ⟨some 7⟩⟩ [] (by decide) rfl rfl (by decide)
  exact ⟨by decide, rfl, by decide, h⟩


/-!
Helper lemmas about the structural sanitizer.
-/

/-- A character matching the bracket pattern character is the bracket. -/
lemma eqCI_lt_iff (c : Char) : eqCI '<' c = true ↔ c = '<' := by
  simp [eqCI, show Char.toUpper '<' = '<' from rfl]

/-- A character matching the colon pattern character is the colon. -/
lemma eqCI_colon_iff (c : Char) : eqCI ':' c = true ↔ c = ':' := by
  simp [eqCI, show Char.toUpper ':' = ':' from rfl]

/-- A matched pattern puts (a case variant of) each of its characters in the
text. -/
lemma startsWithCI_mem (pat l : List Char) (h : startsWithCI pat l = true) :
    ∀ p ∈ pat, ∃ c ∈ l, eqCI p c = true := by
  induction pat generalizing l with
  | nil => intro p hp; cases hp
  | cons q ps ih =>
    cases l with
    | nil => simp [startsWithCI] at h
    | cons c cs =>
      simp only [startsWithCI, Bool.and_eq_true] at h
      intro p hp
      rcases List.mem_cons.1 hp with rfl | hp'
      · exact ⟨c, List.mem_cons_self c cs, h.1⟩
      · obtain ⟨d, hd, he⟩ := ih cs h.2 p hp'
        exact ⟨d, List.mem_cons_of_mem c hd, he⟩

/-- Without a bracket the script-block pass is the identity. -/
lemma stripScriptBlocks_id (l : List Char) (h : '<' ∉ l) :
    ∀ f, stripScriptBlocks f l = l := by
  induction l with
  | nil => intro f; cases f <;> rfl
  | cons c cs ih =>
    have h1 : '<' ∉ cs := fun hm => h (List.mem_cons_of_mem c hm)
    intro f
    cases f with
    | zero => rfl
    | succ f =>
      have hsw : startsWithCI "<script".toList (c :: cs) = false := by
        cases hs : startsWithCI "<script".toList (c :: cs)
        · rfl
        · exfalso
          obtain ⟨d, hd, he⟩ := startsWithCI_mem _ _ hs '<' (by decide)
          rw [(eqCI_lt_iff d).1 he] at hd
          exact h hd
      simp only [stripScriptBlocks]
      rw [hsw]
      simp [ih h1 f]

/-- Without a bracket the malformed-script-tag pass is the identity. -/
lemma stripScriptTags_id (l : List Char) (h : '<' ∉ l) :
    ∀ f, stripScriptTags f l = l := by
  induction l with
  | nil => intro f; cases f <;> rfl
  | cons c cs ih =>
    have h1 : '<' ∉ cs := fun hm => h (List.mem_cons_of_mem c hm)
    have hc : (c == '<') = false := by
      simp only [beq_eq_false_iff_ne, ne_eq]
      intro e
      exact h (e ▸ List.mem_cons_self c cs)
    intro f
    cases f with
    | zero => rfl
    | succ f => simp [stripScriptTags, hc, ih h1 f]

/-- Without a colon the scheme pass is the identity. -/
lemma stripJsScheme_id (l : List Char) (h : ':' ∉ l) :
    ∀ f, stripJsScheme f l = l := by
  induction l with
  | nil => intro f; cases f <;> rfl
  | cons c cs ih =>
    have h1 : ':' ∉ cs := fun hm => h (List.mem_cons_of_mem c hm)
    intro f
    cases f with
    | zero => rfl
    | succ f =>
      have hsw : startsWithCI "javascript:".toList (c :: cs) = false := by
        cases hs : startsWithCI "javascript:".toList (c :: cs)
        · rfl
        · exfalso
          obtain ⟨d, hd, he⟩ := startsWithCI_mem _ _ hs ':' (by decide)
          rw [(eqCI_colon_iff d).1 he] at hd
          exact h hd
      simp only [stripJsScheme]
      rw [hsw]
      simp [ih h1 f]

/-- The head of a list is a member. -/
lemma mem_of_headEq {α : Type} {l : List α} {x : α} (h : l.head? = some x) : x ∈ l := by
  cases l with
  | nil => cases h
  | cons a as =>
    have : a = x := by simpa [List.head?] using h
    exact this ▸ List.mem_cons_self a as

/-- Without an equals sign no event-handler pattern matches. -/
lemma matchHandler_eq_none (l : List Char) (h : '=' ∉ l) : matchHandler l = none := by
  match l with
  | [] => rfl
  | [c] => rfl
  | c1 :: c2 :: rest =>
    have hne : '=' ∉ rest :=
      fun hm => h (List.mem_cons_of_mem _ (List.mem_cons_of_mem _ hm))
    by_cases h1 : (eqCI 'o' c1 && eqCI 'n' c2) = true
    · have hhd : ∀ a b : Nat, (((rest.drop a).drop b).head? == some '=') = false := by
        intro a b
        cases hh : ((rest.drop a).drop b).head? with
        | none => rfl
        | some d =>
          have hd : d ∈ rest :=
            List.drop_subset _ _ (List.drop_subset _ _ (mem_of_headEq hh))
          by_cases hd2 : d = '='
          · exact absurd (hd2 ▸ hd) hne
          · simp [hd2]
      simp only [matchHandler]
      rw [h1, hhd]
      simp
    · have h1' : (eqCI 'o' c1 && eqCI 'n' c2) = false := Bool.eq_false_iff.2 h1
      simp only [matchHandler]
      rw [h1']
      simp

/-- Without an equals sign the event-handler pass is the identity. -/
lemma stripHandlers_id (l : List Char) (h : '=' ∉ l) :
    ∀ f, stripHandlers f l = l := by
  induction l with
  | nil => intro f; cases f <;> rfl
  | cons c cs ih =>
    have h1 : '=' ∉ cs := fun hm => h (List.mem_cons_of_mem c hm)
    intro f
    cases f with
    | zero => rfl
    | succ f => simp [stripHandlers, matchHandler_eq_none _ h, ih h1 f]

/-- Without a bracket the tag-removal pass is the identity. -/
lemma stripAllTags_id (l : List Char) (h : '<' ∉ l) :
    ∀ f, stripAllTags f l = l := by
  induction l with
  | nil => intro f; cases f <;> rfl
  | cons c cs ih =>
    have h1 : '<' ∉ cs := fun hm => h (List.mem_cons_of_mem c hm)
    have hc : (c == '<') = false := by
      simp only [beq_eq_false_iff_ne, ne_eq]
      intro e
      exact h (e ▸ List.mem_cons_self c cs)
    intro f
    cases f with
    | zero => rfl
    | succ f => simp [stripAllTags, hc, ih h1 f]

/-- On a string without bracket, colon and equals characters the sanitizer
only truncates. -/
lemma sanitizeDashboardString_safe (l : List Char)
    (h1 : '<' ∉ l) (h2 : ':' ∉ l) (h3 : '=' ∉ l) :
    sanitizeDashboardString l = l.take 1000 := by
  simp only [sanitizeDashboardString]
  rw [stripScriptBlocks_id l h1, stripScriptTags_id l h1, stripJsScheme_id l h2,
    stripHandlers_id l h3, stripAllTags_id l h1]

/-- C3 counterexample: the structural sanitizer is not idempotent — removing
the scheme token can splice a new occurrence together, so a second
application changes the output. -/
theorem sanitize_idempotence_counterexample :
    sanitizeDashboardString "jajavascript:vascript:".toList = "javascript:".toList
    ∧ sanitizeDashboardString (sanitizeDashboardString "jajavascript:vascript:".toList) = []
    ∧ sanitizeDashboardString (sanitizeDashboardString "jajavascript:vascript:".toList) ≠
        sanitizeDashboardString "jajavascript:vascript:".toList := by
  exact ⟨by decide, by decide, by decide⟩

/-- C3 amended: the structural sanitizer acts as plain truncation, hence
idempotently, on strings containing none of the bracket, colon and equals
characters; on general inputs it is not idempotent. -/
theorem sanitize_idempotent_on_safe_strings (l : List Char)
    (h1 : '<' ∉ l) (h2 : ':' ∉ l) (h3 : '=' ∉ l) :
    sanitizeDashboardString l = l.take 1000
    ∧ sanitizeDashboardString (sanitizeDashboardString l) = sanitizeDashboardString l := by
  have hmain := sanitizeDashboardString_safe l h1 h2 h3
  refine ⟨hmain, ?_⟩
  rw [hmain]
  have hsub : l.take 1000 ⊆ l := List.take_subset 1000 l
  rw [sanitizeDashboardString_safe (l.take 1000) (fun hm => h1 (hsub hm))
    (fun hm => h2 (hsub hm)) (fun hm => h3 (hsub hm)), List.take_take, min_self]

/-- C3 witness: the amended statement at a concrete safe string. -/
theorem sanitize_idempotent_on_safe_strings_witness :
    '<' ∉ "hello world".toList
    ∧ ':' ∉ "hello world".toList
    ∧ '=' ∉ "hello world".toList
    ∧ sanitizeDashboardString "hello world".toList = "hello world".toList.take 1000
    ∧ sanitizeDashboardString (sanitizeDashboardString "hello world".toList) =
        sanitizeDashboardString "hello world".toList := by
  have h := sanitize_idempotent_on_safe_strings "hello world".toList
    (by decide) (by decide) (by decide)
  exact ⟨by decide, by decide, by decide, h.1, h.2⟩

/-- Splitting at the first greater-than sign decomposes the list. -/
lemma splitAtGt_some (cs : List Char) :
    ∀ seg rest, splitAtGt cs = some (seg, rest) → cs = seg ++ '>' :: rest := by
  induction cs with
  | nil => intro seg rest h; cases h
  | cons c cs ih =>
    intro seg rest h
    by_cases hgt : c = '>'
    · subst hgt
      simp [splitAtGt] at h
      obtain ⟨h1', h2'⟩ := h
      subst h1'
      subst h2'
      simp
    · cases hsp : splitAtGt cs with
      | none => simp [splitAtGt, hgt, hsp] at h
      | some pr =>
        obtain ⟨a, b⟩ := pr
        simp [splitAtGt, hgt, hsp] at h
        obtain ⟨h1', h2'⟩ := h
        subst h1'
        subst h2'
        simp [ih a b hsp]

/-- When no split exists there is no greater-than sign. -/
lemma splitAtGt_none (cs : List Char) (h : splitAtGt cs = none) : '>' ∉ cs := by
  induction cs with
  | nil => simp
  | cons c cs ih =>
    by_cases hgt : c = '>'
    · subst hgt
      simp [splitAtGt] at h
    · cases hsp : splitAtGt cs with
      | none =>
        intro hm
        rcases List.mem_cons.1 hm with he | hm'
        · exact hgt he.symm
        · exact ih hsp hm'
      | some pr => simp [splitAtGt, hgt, hsp] at h

/-- The tag-removal pass only keeps characters of its input. -/
lemma mem_stripAllTags : ∀ (f : Nat) (l : List Char) (x : Char),
    x ∈ stripAllTags f l → x ∈ l := by
  intro f
  induction f with
  | zero =>
    intro l x hx
    cases l with
    | nil => simp [stripAllTags] at hx
    | cons c cs => simpa [stripAllTags] using hx
  | succ f ih =>
    intro l x hx
    cases l with
    | nil => simp [stripAllTags] at hx
    | cons c cs =>
      by_cases hc : c = '<'
      · subst hc
        cases hsp : splitAtGt cs with
        | none =>
          rw [show stripAllTags (f + 1) ('<' :: cs) = '<' :: stripAllTags f cs from by
            simp [stripAllTags, hsp]] at hx
          rcases List.mem_cons.1 hx with rfl | hx'
          · exact List.mem_cons_self _ _
          · exact List.mem_cons_of_mem _ (ih cs x hx')
        | some pr =>
          obtain ⟨seg, rest⟩ := pr
          rw [show stripAllTags (f + 1) ('<' :: cs) = stripAllTags f rest from by
            simp [stripAllTags, hsp]] at hx
          have hrest : x ∈ rest := ih rest x hx
          have hcs : cs = seg ++ '>' :: rest := splitAtGt_some cs seg rest hsp
          refine List.mem_cons_of_mem _ ?_
          rw [hcs]
          exact List.mem_append.2 (Or.inr (List.mem_cons_of_mem _ hrest))
      · have hcb : (c == '<') = false := by simp [hc]
        rw [show stripAllTags (f + 1) (c :: cs) = c :: stripAllTags f cs from by
          simp [stripAllTags, hcb]] at hx
        rcases List.mem_cons.1 hx with rfl | hx'
        · exact List.mem_cons_self _ _
        · exact List.mem_cons_of_mem _ (ih cs x hx')

/-- The greater-than-sign test is membership. -/
lemma hasGtSign_iff (l : List Char) : hasGtSign l = true ↔ '>' ∈ l := by
  induction l with
  | nil => simp [hasGtSign]
  | cons c cs ih =>
    simp only [hasGtSign, Bool.or_eq_true, beq_iff_eq, ih, List.mem_cons]
    constructor
    · rintro (rfl | h)
      · exact Or.inl rfl
      · exact Or.inr h
    · rintro (h | h)
      · exact Or.inl h.symm
      · exact Or.inr h

/-- With enough fuel the tag-removal pass leaves no complete tag shape. -/
lemma stripAllTags_no_span : ∀ (f : Nat) (l : List Char), l.length ≤ f →
    hasTagSpan (stripAllTags f l) = false := by
  intro f
  induction f with
  | zero =>
    intro l hl
    have : l = [] := List.eq_nil_of_length_eq_zero (Nat.le_zero.1 hl)
    subst this
    rfl
  | succ f ih =>
    intro l hl
    cases l with
    | nil => rfl
    | cons c cs =>
      have hcs : cs.length ≤ f := by
        simp only [List.length_cons] at hl
        omega
      by_cases hc : c = '<'
      · subst hc
        cases hsp : splitAtGt cs with
        | none =>
          have hng : '>' ∉ cs := splitAtGt_none cs hsp
          rw [show stripAllTags (f + 1) ('<' :: cs) = '<' :: stripAllTags f cs from by
            simp [stripAllTags, hsp]]
          have hrec : hasTagSpan (stripAllTags f cs) = false := ih cs hcs
          have hgs : hasGtSign (stripAllTags f cs) = false := by
            cases hg : hasGtSign (stripAllTags f cs)
            · rfl
            · exact absurd (mem_stripAllTags f cs '>' ((hasGtSign_iff _).1 hg)) hng
          simp [hasTagSpan, hrec, hgs]
        | some pr =>
          obtain ⟨seg, rest⟩ := pr
          have hcs2 : cs = seg ++ '>' :: rest := splitAtGt_some cs seg rest hsp
          have hrest : rest.length ≤ f := by
            rw [hcs2] at hcs
            simp only [List.length_append, List.length_cons] at hcs
            omega
          rw [show stripAllTags (f + 1) ('<' :: cs) = stripAllTags f rest from by
            simp [stripAllTags, hsp]]
          exact ih rest hrest
      · have hcb : (c == '<') = false := by simp [hc]
        rw [show stripAllTags (f + 1) (c :: cs) = c :: stripAllTags f cs from by
          simp [stripAllTags, hcb]]
        simp [hasTagSpan, hcb, ih cs hcs]

/-- Truncation cannot introduce a complete tag shape. -/
lemma hasTagSpan_take (l : List Char) (h : hasTagSpan l = false) (n : Nat) :
    hasTagSpan (l.take n) = false := by
  induction l generalizing n with
  | nil => cases n <;> rfl
  | cons c cs ih =>
    cases n with
    | zero => rfl
    | succ n =>
      simp only [hasTagSpan, Bool.or_eq_false_iff] at h
      obtain ⟨ha, hb⟩ := h
      rw [List.take_succ_cons]
      by_cases hc : (c == '<') = true
      · have hgs : hasGtSign cs = false := by
          cases hg : hasGtSign cs
          · rfl
          · rw [hc, hg] at ha; cases ha
        have hgt : '>' ∉ cs := fun hm => by
          rw [(hasGtSign_iff cs).2 hm] at hgs
          cases hgs
        have hgt' : '>' ∉ cs.take n := fun hm => hgt (List.take_subset n cs hm)
        have hgs' : hasGtSign (cs.take n) = false := by
          cases hg : hasGtSign (cs.take n)
          · rfl
          · exact absurd ((hasGtSign_iff _).1 hg) hgt'
        simp [hasTagSpan, hgs', ih hb n]
      · have hc' : (c == '<') = false := Bool.eq_false_iff.2 hc
        simp [hasTagSpan, hc', ih hb n]

/-- C4 counterexample: an input containing a complete object tag whose
sanitized output still contains the literal tag name. -/
theorem active_tag_name_survives_counterexample :
    containsSeq "<object>".toList "<object></object>object".toList = true
    ∧ sanitizeDashboardString "<object></object>object".toList = "object".toList
    ∧ containsSeq "object".toList
        (sanitizeDashboardString "<object></object>object".toList) = true := by
  exact ⟨by decide, by decide, by decide⟩

/-- C4 amended: for every input the structurally sanitized output contains no
complete tag shape — no surviving bracket is followed by a closing
greater-than sign, so no intact active-content tag such as a script, object,
iframe or embed tag remains — although the bare tag name can survive as plain
text. -/
theorem sanitized_output_no_tag_span (l : List Char) :
    hasTagSpan (sanitizeDashboardString l) = false := by
  simp only [sanitizeDashboardString]
  exact hasTagSpan_take _ (stripAllTags_no_span _ _ (Nat.le_refl _)) 1000
